import Mathlib

/-
  Verification development for gdb/mi/mi-cmd-stack.c (gdb 7.6 MI stack
  commands).  The definitions below are a shallow embedding of that file:
  each `def` mirrors one C function or enum, with the external
  collaborators (frame chain, symbol table lookup, read_frame_arg,
  common_val_print, apply_frame_filter) modelled as oracle data carried by
  the state structures.
-/

namespace MiCmdStack

/-- `enum print_values` from gdb (PRINT_NO_VALUES / PRINT_SIMPLE_VALUES /
PRINT_ALL_VALUES), the value-verbosity policy. -/
inductive print_values where
  | PRINT_NO_VALUES
  | PRINT_SIMPLE_VALUES
  | PRINT_ALL_VALUES
deriving DecidableEq, Repr

/-- `enum what_to_list { locals, arguments, all }` from mi-cmd-stack.c. -/
inductive what_to_list where
  | locals
  | arguments
  | all
deriving DecidableEq, Repr

/-- `enum py_bt_status`: result of `apply_frame_filter`. -/
inductive py_bt_status where
  | PY_BT_ERROR
  | PY_BT_COMPLETED
  | PY_BT_NO_FILTERS
deriving DecidableEq, Repr

/-- Storage classes (`SYMBOL_CLASS`) named in the switch of
`list_args_or_locals`. -/
inductive address_class where
  | LOC_UNDEF
  | LOC_CONST
  | LOC_TYPEDEF
  | LOC_LABEL
  | LOC_BLOCK
  | LOC_CONST_BYTES
  | LOC_UNRESOLVED
  | LOC_OPTIMIZED_OUT
  | LOC_ARG
  | LOC_REF_ARG
  | LOC_REGPARM_ADDR
  | LOC_LOCAL
  | LOC_STATIC
  | LOC_REGISTER
  | LOC_COMPUTED
deriving DecidableEq, Repr

/-- The type codes `list_args_or_locals` compares against
(`TYPE_CODE_ARRAY`, `TYPE_CODE_STRUCT`, `TYPE_CODE_UNION`); every other
code is collapsed into `TYPE_CODE_OTHER`, and `TYPE_CODE_TYPEDEF` is the
code of a not-yet-resolved typedef. -/
inductive type_code where
  | TYPE_CODE_ARRAY
  | TYPE_CODE_STRUCT
  | TYPE_CODE_UNION
  | TYPE_CODE_TYPEDEF
  | TYPE_CODE_OTHER
deriving DecidableEq, Repr

/-- A gdb type: either a typedef wrapper or a concrete type with its code. -/
inductive gdb_type where
  | typedef_of (t : gdb_type)
  | concrete (code : type_code)
deriving DecidableEq, Repr

/-- `check_typedef`: resolve a chain of typedefs to the underlying type. -/
def check_typedef : gdb_type → gdb_type
  | .typedef_of t => check_typedef t
  | .concrete c => .concrete c

/-- `TYPE_CODE` of a type. -/
def TYPE_CODE : gdb_type → type_code
  | .typedef_of _ => .TYPE_CODE_TYPEDEF
  | .concrete c => c

/-- A symbol-table entry as consumed by mi-cmd-stack.c: name
(`SYMBOL_PRINT_NAME`), linkage name (`SYMBOL_LINKAGE_NAME`), storage class
(`SYMBOL_CLASS`), the `SYMBOL_IS_ARGUMENT` role flag, its type, and the
text `type_print` renders for that type (an external-collaborator
rendering carried as data). -/
structure symbol where
  name : String
  linkage_name : String
  aclass : address_class
  is_argument : Bool
  type : gdb_type
  type_text : String
deriving DecidableEq, Repr

/-- The storage-class switch of `list_args_or_locals` (the `print_me`
local): classes in the first group are never printed; for the second
group, `all` prints unconditionally and `locals`/`arguments` consult the
`SYMBOL_IS_ARGUMENT` role flag. -/
def print_me (what : what_to_list) (sym : symbol) : Bool :=
  match sym.aclass with
  | .LOC_UNDEF | .LOC_CONST | .LOC_TYPEDEF | .LOC_LABEL | .LOC_BLOCK
  | .LOC_CONST_BYTES | .LOC_UNRESOLVED | .LOC_OPTIMIZED_OUT => false
  | .LOC_ARG | .LOC_REF_ARG | .LOC_REGPARM_ADDR | .LOC_LOCAL
  | .LOC_STATIC | .LOC_REGISTER | .LOC_COMPUTED =>
    match what with
    | .all => true
    | .locals => !sym.is_argument
    | .arguments => sym.is_argument

/-- The storage classes of the always-excluded arm of the switch. -/
def excluded_class (c : address_class) : Bool :=
  match c with
  | .LOC_UNDEF | .LOC_CONST | .LOC_TYPEDEF | .LOC_LABEL | .LOC_BLOCK
  | .LOC_CONST_BYTES | .LOC_UNRESOLVED | .LOC_OPTIMIZED_OUT => true
  | _ => false

/-- The candidate storage classes (second arm of the switch). -/
def candidate_class (c : address_class) : Bool :=
  match c with
  | .LOC_ARG | .LOC_REF_ARG | .LOC_REGPARM_ADDR | .LOC_LOCAL
  | .LOC_STATIC | .LOC_REGISTER | .LOC_COMPUTED => true
  | _ => false

/-- `enum print_entry_values` restricted to the two states a `frame_arg`
ever carries in this file (`print_entry_values_no` /
`print_entry_values_only`, per the gdb_assert in `list_arg_or_local`). -/
inductive print_entry_values where
  | print_entry_values_no
  | print_entry_values_only
deriving DecidableEq, Repr

/-- Outcome of the external `common_val_print` collaborator on one value:
the text it writes to the stream, plus the message of the exception it
raises midway, if any (the `TRY_CATCH` in `list_arg_or_local` catches
it). -/
structure value where
  printed : String
  thrown : Option String
deriving DecidableEq, Repr

/-- `struct frame_arg`: the symbol, its fetched value or fetch-error
message (at most one of the two, per the gdb_assert), and the entry-kind
tag. -/
structure frame_arg where
  sym : symbol
  val : Option value
  error : Option String
  entry_kind : print_entry_values
deriving DecidableEq, Repr

/-- One record emitted to the ui_out sink by `list_arg_or_local`: the
name field (with its optional "@entry" suffix), whether the `arg=1`
field was emitted, the optional type field, and the optional value
field. -/
structure listed_record where
  name : String
  arg_flag : Bool
  type_field : Option String
  value_field : Option String
deriving DecidableEq, Repr

/-- The `_("<error reading variable: %s>")` formatting of
`list_arg_or_local`. -/
def error_value_string (m : String) : String :=
  "<error reading variable: " ++ m ++ ">"

/-- `list_arg_or_local`: print a single local or argument.  The name gets
"@entry" appended when the entry kind is `print_entry_values_only`; the
`arg` int field is emitted for arguments when listing `all`; the type is
emitted under `PRINT_SIMPLE_VALUES`; the value field is emitted when a
value or an error is attached, a fetch error (or an error
`common_val_print` raises midway) being rendered through
`error_value_string` instead of aborting. -/
def list_arg_or_local (arg : frame_arg) (what : what_to_list)
    (values : print_values) : listed_record :=
  { name := arg.sym.name ++
      (if arg.entry_kind = .print_entry_values_only then "@entry" else ""),
    arg_flag := (if what = .all then arg.sym.is_argument else false),
    type_field :=
      (if values = .PRINT_SIMPLE_VALUES then some arg.sym.type_text else none),
    value_field :=
      match arg.error, arg.val with
      | some e, _ => some (error_value_string e)
      | none, some v =>
          some (v.printed ++
            (match v.thrown with
             | some m => error_value_string m
             | none => ""))
      | none, none => none }

/-- The post-`read_frame_arg` state of the `arg`/`entryarg` pair in
`list_args_or_locals`: `read_frame_arg` is an external collaborator
(stack.c), so its effect on the two structs is oracle data. -/
structure fetch_result where
  arg_val : Option value
  arg_error : Option String
  arg_entry_kind : print_entry_values
  entryarg_val : Option value
  entryarg_error : Option String
  entryarg_entry_kind : print_entry_values
deriving DecidableEq, Repr

/-- The memset-plus-initialization state of the `arg`/`entryarg` pair when
`read_frame_arg` is not called: no value, no error, entry kind
`print_entry_values_no` on both. -/
def no_fetch : fetch_result :=
  ⟨none, none, .print_entry_values_no, none, none, .print_entry_values_no⟩

/-- The `read_frame_arg` outcome for a variable whose value fetch fails
with message `e`: the normal-location request carries the error string
and stays `print_entry_values_no`; the entry request stays untouched. -/
def fetch_failure (e : String) : fetch_result :=
  ⟨none, some e, .print_entry_values_no, none, none, .print_entry_values_no⟩

/-- A lexical block: its symbol entries (`ALL_BLOCK_SYMBOLS`) and whether
`BLOCK_FUNCTION (block)` is non-null. -/
structure block where
  syms : List symbol
  function_block : Bool
deriving DecidableEq, Repr

/-- One frame, as the built-in enumeration consumes it: the superblock
chain starting at `get_frame_block (fi, 0)`, the `lookup_symbol`
collaborator used to re-resolve an argument by linkage name in a block,
and the `read_frame_arg` collaborator (both oracles; `lookup_symbol` is
total because `list_args_or_locals` gdb_asserts its result non-null). -/
structure frame_info where
  blocks : List block
  lookup_symbol : String → block → symbol
  read_frame_arg : symbol → fetch_result

/-- The `sym2` computation of `list_args_or_locals`: an argument is
re-resolved canonically by linkage name in its block, any other symbol is
used as found. -/
def resolve_sym (fi : frame_info) (blk : block) (sym : symbol) : symbol :=
  if sym.is_argument then fi.lookup_symbol sym.linkage_name blk else sym

/-- The `switch (values)` of `list_args_or_locals` with its fallthrough:
`PRINT_SIMPLE_VALUES` calls `read_frame_arg` only when the
typedef-resolved type is not an array, struct or union;
`PRINT_ALL_VALUES` always calls it; `PRINT_NO_VALUES` never does. -/
def fetch_values_for (values : print_values) (fi : frame_info)
    (sym2 : symbol) : fetch_result :=
  match values with
  | .PRINT_SIMPLE_VALUES =>
      let type := check_typedef sym2.type
      if TYPE_CODE type ≠ .TYPE_CODE_ARRAY
          ∧ TYPE_CODE type ≠ .TYPE_CODE_STRUCT
          ∧ TYPE_CODE type ≠ .TYPE_CODE_UNION then
        fi.read_frame_arg sym2
      else
        no_fetch
  | .PRINT_ALL_VALUES => fi.read_frame_arg sym2
  | .PRINT_NO_VALUES => no_fetch

/-- Whether the `switch (values)` reaches `read_frame_arg` for a resolved
symbol: the spec-facing characterization of the fetch decision. -/
def fetch_attempted (values : print_values) (sym2 : symbol) : Bool :=
  match values with
  | .PRINT_NO_VALUES => false
  | .PRINT_ALL_VALUES => true
  | .PRINT_SIMPLE_VALUES =>
      decide (TYPE_CODE (check_typedef sym2.type) ≠ .TYPE_CODE_ARRAY
        ∧ TYPE_CODE (check_typedef sym2.type) ≠ .TYPE_CODE_STRUCT
        ∧ TYPE_CODE (check_typedef sym2.type) ≠ .TYPE_CODE_UNION)

/-- The `if (print_me)` body of `list_args_or_locals` for one symbol:
resolve `sym2`, run the values switch, then emit the normal request
unless its entry kind became `print_entry_values_only` and,
independently, emit the entry request whenever its entry kind is not
`print_entry_values_no`. -/
def process_symbol (fi : frame_info) (blk : block) (what : what_to_list)
    (values : print_values) (sym : symbol) : List listed_record :=
  let sym2 := resolve_sym fi blk sym
  let r := fetch_values_for values fi sym2
  (if r.arg_entry_kind ≠ .print_entry_values_only then
    [list_arg_or_local ⟨sym2, r.arg_val, r.arg_error, r.arg_entry_kind⟩
      what values]
  else []) ++
  (if r.entryarg_entry_kind ≠ .print_entry_values_no then
    [list_arg_or_local
      ⟨sym2, r.entryarg_val, r.entryarg_error, r.entryarg_entry_kind⟩
      what values]
  else [])

/-- The `while (block != 0)` chain walk of `list_args_or_locals`: each
block is processed, and the walk stops inclusively at the first block
whose `BLOCK_FUNCTION` is set (or at the end of the superblock chain). -/
def blocks_to_walk : List block → List block
  | [] => []
  | b :: rest =>
      if b.function_block then [b] else b :: blocks_to_walk rest

/-- The per-symbol contribution of one block entry to the listing: the
records of `process_symbol` when the storage-class switch selects the
symbol, nothing otherwise. -/
def symbol_records (fi : frame_info) (blk : block) (what : what_to_list)
    (values : print_values) (sym : symbol) : List listed_record :=
  if print_me what sym then process_symbol fi blk what values sym else []

/-- `list_args_or_locals`: the full built-in enumeration of one frame,
walking the block chain and emitting the records of every selected
symbol in order. -/
def list_args_or_locals (what : what_to_list) (values : print_values)
    (fi : frame_info) : List listed_record :=
  (blocks_to_walk fi.blocks).flatMap
    (fun b => b.syms.flatMap (symbol_records fi b what values))

/-- `get_current_frame ()` over a stack of `depth` frames, identified by
their depth index (innermost = 0): the innermost frame, or none when the
stack is empty. -/
def get_current_frame (depth : Nat) : Option Nat :=
  if depth = 0 then none else some 0

/-- `get_prev_frame (fi)`: the next-outer frame of frame `idx`, or none
past the outermost frame. -/
def get_prev_frame (depth : Nat) (idx : Nat) : Option Nat :=
  if idx + 1 < depth then some (idx + 1) else none

/-- The positioning loop shared by `mi_cmd_stack_list_frames` and
`mi_cmd_stack_list_args`:
`for (i = 0, fi = get_current_frame (); fi && i < frame_low; i++, fi = get_prev_frame (fi));`
returning the final `(fi, i)` pair. -/
def position_frame (depth : Nat) (fi : Option Nat) (i : Int)
    (frame_low : Int) : Option Nat × Int :=
  match fi with
  | none => (none, i)
  | some idx =>
      if i < frame_low then
        position_frame depth (get_prev_frame depth idx) (i + 1) frame_low
      else
        (some idx, i)
termination_by (frame_low - i).toNat
decreasing_by simp_wf; omega

/-- The display loop of `mi_cmd_stack_list_frames`:
`for (; fi && (i <= frame_high || frame_high == -1); i++, fi = get_prev_frame (fi)) print_frame_info (fi, ...)`.
`print_frame_info` prints each frame's own level, so the emitted record
is modelled as the frame's depth index. -/
def print_frames_loop (depth : Nat) (fi : Option Nat) (i : Int)
    (frame_high : Int) : List Nat :=
  match fi with
  | none => []
  | some idx =>
      if i ≤ frame_high ∨ frame_high = -1 then
        idx :: print_frames_loop depth (get_prev_frame depth idx) (i + 1)
          frame_high
      else []
termination_by
  match fi with
  | none => 0
  | some idx => depth + 1 - min idx depth
decreasing_by
  simp_wf
  unfold get_prev_frame
  split
  next heq =>
    split at heq
    · simp at heq
    · omega
  next j heq =>
    split at heq
    · simp only [Option.some.injEq] at heq
      omega
    · simp at heq

/-- The frame a depth index denotes within a concrete stack (the loop
only ever reaches indices below the stack's length; the out-of-range
default is never consumed). -/
def frame_at (stack : List frame_info) (k : Nat) : frame_info :=
  match stack[k]? with
  | some f => f
  | none => ⟨[], fun _ _ => ⟨"", "", .LOC_UNDEF, false, .concrete .TYPE_CODE_OTHER, ""⟩, fun _ => no_fetch⟩

/-- The display loop of `mi_cmd_stack_list_args`: for each frame in the
window it opens a "frame" tuple, emits `ui_out_field_int ("level", i)`
(the loop counter), and runs `list_args_or_locals (arguments, ...)` on
that frame. -/
def list_args_loop (stack : List frame_info) (values : print_values)
    (fi : Option Nat) (i : Int) (frame_high : Int) :
    List (Int × List listed_record) :=
  match fi with
  | none => []
  | some idx =>
      if i ≤ frame_high ∨ frame_high = -1 then
        (i, list_args_or_locals .arguments values (frame_at stack idx)) ::
          list_args_loop stack values (get_prev_frame stack.length idx)
            (i + 1) frame_high
      else []
termination_by
  match fi with
  | none => 0
  | some idx => stack.length + 1 - min idx stack.length
decreasing_by
  simp_wf
  unfold get_prev_frame
  split
  next heq =>
    split at heq
    · simp at heq
    · omega
  next j heq =>
    split at heq
    · simp only [Option.some.injEq] at heq
      omega
    · simp at heq

/-- The `py_frame_low` translation both frame-window commands perform
before calling `apply_frame_filter`: `-1` cannot be passed to the filter
(it would mean a relative backtrace from the tail), so it is
incremented to 0. -/
def py_frame_low_of (frame_low : Int) : Int :=
  if frame_low = -1 then frame_low + 1 else frame_low

/-- The `result` each command reads after the conditional
`apply_frame_filter` call: the filter's status when it was invoked, and
the initializer `PY_BT_ERROR` otherwise. -/
def effective_filter_result (frame_filters raw_arg : Bool)
    (filter_result : py_bt_status) : py_bt_status :=
  if !raw_arg && frame_filters then filter_result else .PY_BT_ERROR

/-- The shared dispatch condition
`if (! frame_filters || raw_arg || result == PY_BT_NO_FILTERS)` guarding
every built-in path. -/
def builtin_path_chosen (frame_filters raw_arg : Bool)
    (result : py_bt_status) : Bool :=
  !frame_filters || raw_arg || decide (result = .PY_BT_NO_FILTERS)

/-- Observable outcome of one `-stack-list-frames` request: the error it
raises (if any), whether and with which low bound `apply_frame_filter`
was invoked, whether the built-in path ran, and the levels of the frame
records the built-in path printed. -/
structure frames_result where
  err : Option String
  filter_called : Bool
  filter_frame_low : Option Int
  builtin_ran : Bool
  levels : List Nat
deriving DecidableEq, Repr

/-- `mi_cmd_stack_list_frames` after argument parsing: position `fi` on
frame `frame_low` (erroring when the chain is exhausted first), then
conditionally invoke the filter with the translated low bound, then run
the built-in display loop under the shared dispatch condition. -/
def mi_cmd_stack_list_frames_core (frame_filters : Bool)
    (filter_result : py_bt_status) (raw_arg : Bool)
    (frame_low frame_high : Int) (depth : Nat) : frames_result :=
  let p := position_frame depth (get_current_frame depth) 0 frame_low
  match p.1 with
  | none =>
      ⟨some "-stack-list-frames: Not enough frames in stack.",
        false, none, false, []⟩
  | some idx =>
      let invoked := !raw_arg && frame_filters
      let result := effective_filter_result frame_filters raw_arg
        filter_result
      let builtin := builtin_path_chosen frame_filters raw_arg result
      ⟨none, invoked,
        if invoked then some (py_frame_low_of frame_low) else none,
        builtin,
        if builtin then print_frames_loop depth (some idx) p.2 frame_high
        else []⟩

/-- Observable outcome of one `-stack-list-arguments` request (frame
records carry the emitted level and the argument listing of that
frame). -/
structure args_result where
  err : Option String
  filter_called : Bool
  filter_frame_low : Option Int
  builtin_ran : Bool
  frames : List (Int × List listed_record)
deriving DecidableEq, Repr

/-- `mi_cmd_stack_list_args` after argument parsing: identical structure
to `mi_cmd_stack_list_frames_core`, with the per-frame argument listing
in the display loop. -/
def mi_cmd_stack_list_args_core (frame_filters : Bool)
    (filter_result : py_bt_status) (raw_arg : Bool)
    (values : print_values) (frame_low frame_high : Int)
    (stack : List frame_info) : args_result :=
  let p := position_frame stack.length (get_current_frame stack.length) 0
    frame_low
  match p.1 with
  | none =>
      ⟨some "-stack-list-arguments: Not enough frames in stack.",
        false, none, false, []⟩
  | some idx =>
      let invoked := !raw_arg && frame_filters
      let result := effective_filter_result frame_filters raw_arg
        filter_result
      let builtin := builtin_path_chosen frame_filters raw_arg result
      ⟨none, invoked,
        if invoked then some (py_frame_low_of frame_low) else none,
        builtin,
        if builtin then list_args_loop stack values (some idx) p.2
          frame_high
        else []⟩

/-- Observable outcome of one `-stack-list-locals` or
`-stack-list-variables` request. -/
structure locals_result where
  filter_called : Bool
  builtin_ran : Bool
  records : List listed_record
deriving DecidableEq, Repr

/-- `mi_cmd_stack_list_locals` after argument parsing: conditional filter
invocation, then `list_args_or_locals (locals, ...)` on the selected
frame under the shared dispatch condition. -/
def mi_cmd_stack_list_locals_core (frame_filters : Bool)
    (filter_result : py_bt_status) (raw_arg : Bool)
    (values : print_values) (frame : frame_info) : locals_result :=
  let invoked := !raw_arg && frame_filters
  let result := effective_filter_result frame_filters raw_arg filter_result
  let builtin := builtin_path_chosen frame_filters raw_arg result
  ⟨invoked, builtin,
    if builtin then list_args_or_locals .locals values frame else []⟩

/-- `mi_cmd_stack_list_variables` after argument parsing: same dispatch,
with `list_args_or_locals (all, ...)`. -/
def mi_cmd_stack_list_variables_core (frame_filters : Bool)
    (filter_result : py_bt_status) (raw_arg : Bool)
    (values : print_values) (frame : frame_info) : locals_result :=
  let invoked := !raw_arg && frame_filters
  let result := effective_filter_result frame_filters raw_arg filter_result
  let builtin := builtin_path_chosen frame_filters raw_arg result
  ⟨invoked, builtin,
    if builtin then list_args_or_locals .all values frame else []⟩

/-- `parse_no_frames_option`: 1 exactly when the argument is the literal
opt-out token. -/
def parse_no_frames_option (arg : String) : Nat :=
  if arg = "--no-frame-filters" then 1 else 0

/-- The `raw_arg` computation of `mi_cmd_stack_list_args`: the first
argument is tested when present. -/
def stack_list_args_raw_arg (argv : List String) : Nat :=
  match argv with
  | [] => 0
  | a :: _ => parse_no_frames_option a

/-- The arity validation of `mi_cmd_stack_list_args`:
`if (argc < 1 || (argc > 3 && ! raw_arg) || (argc == 2 && ! raw_arg)) error (...)`;
true when the request proceeds. -/
def stack_list_args_arity_ok (argv : List String) : Bool :=
  let argc := argv.length
  let raw := stack_list_args_raw_arg argv
  !(decide (argc < 1) || (decide (argc > 3) && decide (raw = 0))
    || (decide (argc = 2) && decide (raw = 0)))

/-- The indices `mi_cmd_stack_list_args` reads from `argv` after
validation: `argv[raw_arg]` for the print-values token, and
`argv[1 + raw_arg]`, `argv[2 + raw_arg]` for the bounds when
`argc >= 3`. -/
def stack_list_args_read_indices (argv : List String) : List Nat :=
  let raw := stack_list_args_raw_arg argv
  raw :: (if argv.length ≥ 3 then [1 + raw, 2 + raw] else [])

/-- A scalar local used to instantiate the classifier claims. -/
def sample_local_sym : symbol :=
  ⟨"a", "a", .LOC_LOCAL, false, .concrete .TYPE_CODE_OTHER, "int"⟩

/-- A frame with no blocks, used to instantiate command-level claims. -/
def empty_frame : frame_info :=
  ⟨[], fun _ _ => ⟨"", "", .LOC_UNDEF, false, .concrete .TYPE_CODE_OTHER, ""⟩,
    fun _ => no_fetch⟩

/-- An argument symbol whose fetch yields both a current-location and a
call-site value, used to instantiate the entry-kind claims. -/
def entry_arg_sym : symbol :=
  ⟨"p", "p", .LOC_ARG, true, .concrete .TYPE_CODE_OTHER, "int"⟩

/-- The block holding `entry_arg_sym`. -/
def entry_block : block := ⟨[entry_arg_sym], true⟩

/-- A fetch outcome populating both requests: the normal one keeps
`print_entry_values_no`, the entry one is promoted to
`print_entry_values_only`. -/
def both_values_fetch : fetch_result :=
  ⟨some ⟨"2", none⟩, none, .print_entry_values_no,
    some ⟨"1", none⟩, none, .print_entry_values_only⟩

/-- The frame whose fetch collaborator returns `both_values_fetch`. -/
def entry_frame : frame_info :=
  ⟨[entry_block], fun _ _ => entry_arg_sym, fun _ => both_values_fetch⟩

/-- Whether a type's typedef-resolved code is aggregate (array, struct
or union), the exemption tested by the `PRINT_SIMPLE_VALUES` arm. -/
def aggregate_type_code (t : gdb_type) : Bool :=
  decide (TYPE_CODE (check_typedef t) = .TYPE_CODE_ARRAY ∨
    TYPE_CODE (check_typedef t) = .TYPE_CODE_STRUCT ∨
    TYPE_CODE (check_typedef t) = .TYPE_CODE_UNION)

/-- A struct-typed local used to instantiate the simple-values claims. -/
def struct_sym : symbol :=
  ⟨"s", "s", .LOC_LOCAL, false, .concrete .TYPE_CODE_STRUCT, "struct st"⟩

/-- The block holding `struct_sym`. -/
def struct_block : block := ⟨[struct_sym], true⟩

/-- A frame owning `struct_block`; its fetch collaborator would fail, but
the aggregate exemption keeps it from ever being consulted. -/
def struct_frame : frame_info :=
  ⟨[struct_block], fun _ _ => struct_sym,
    fun _ => fetch_failure "unreadable"⟩

/-- The message of the failing fetch used to instantiate the
fetch-failure claims. -/
def read_error_msg : String := "Cannot access memory at address 0x0"

/-- A plain non-aggregate type. -/
def plain_int : gdb_type := .concrete .TYPE_CODE_OTHER

/-- First local of the mixed block; its fetch succeeds. -/
def local_x : symbol := ⟨"x", "x", .LOC_LOCAL, false, plain_int, "int"⟩

/-- Second local of the mixed block; its fetch fails. -/
def local_y : symbol := ⟨"y", "y", .LOC_LOCAL, false, plain_int, "int"⟩

/-- Third local of the mixed block; its fetch succeeds. -/
def local_z : symbol := ⟨"z", "z", .LOC_LOCAL, false, plain_int, "int"⟩

/-- A function-level block with a failing variable in the middle. -/
def mixed_block : block := ⟨[local_x, local_y, local_z], true⟩

/-- A successful fetch outcome: a plain value on the normal request. -/
def ok_fetch : fetch_result :=
  ⟨some ⟨"7", none⟩, none, .print_entry_values_no,
    none, none, .print_entry_values_no⟩

/-- A frame whose fetch collaborator fails exactly on `local_y`. -/
def failing_frame : frame_info :=
  ⟨[mixed_block], fun _ _ => local_y,
    fun s => if s.name = "y" then fetch_failure read_error_msg
      else ok_fetch⟩

/-- The positioning loop exits immediately once the frame pointer is
null. -/
theorem position_frame_at_none (depth : Nat) (i frame_low : Int) :
    position_frame depth none i frame_low = (none, i) := by
  rw [position_frame]

/-- Closed form of the positioning loop started at frame `idx` with
counter `idx`: it stops where it stands if `frame_low ≤ idx`, else lands
on frame `frame_low` when the stack is deep enough, and otherwise
exhausts the chain with the counter at `depth`. -/
theorem position_frame_closed (n : Nat) : ∀ (depth idx : Nat) (low : Int),
    depth - idx ≤ n → idx < depth →
    position_frame depth (some idx) (idx : Int) low =
      (if low ≤ (idx : Int) then ((some idx : Option Nat), (idx : Int))
       else if low < (depth : Int) then (some low.toNat, low)
       else (none, (depth : Int))) := by
  induction n with
  | zero =>
      intro depth idx low h1 h2
      omega
  | succ n ih =>
      intro depth idx low h1 h2
      rw [position_frame]
      by_cases hlow : (idx : Int) < low
      · simp only [hlow, if_true]
        unfold get_prev_frame
        by_cases hnext : idx + 1 < depth
        · simp only [hnext, if_true]
          have hcast : (idx : Int) + 1 = ((idx + 1 : Nat) : Int) := by
            push_cast
            ring
          rw [hcast, ih depth (idx + 1) low (by omega) hnext]
          by_cases hle : low ≤ ((idx + 1 : Nat) : Int)
          · have hl : low = ((idx + 1 : Nat) : Int) := by omega
            subst hl
            simp only [le_refl, if_true]
            have : ¬ (((idx + 1 : Nat) : Int) ≤ (idx : Int)) := by
              push_cast
              omega
            rw [if_neg this, if_pos (by push_cast at hnext ⊢; omega)]
            simp
          · rw [if_neg hle]
            have : ¬ (low ≤ (idx : Int)) := by omega
            rw [if_neg this]
        · simp only [hnext, if_false]
          rw [position_frame_at_none]
          have hd : depth = idx + 1 := by omega
          have h1' : ¬ (low ≤ (idx : Int)) := by omega
          have h2' : ¬ (low < (depth : Int)) := by
            rw [hd]
            push_cast
            omega
          rw [if_neg h1', if_neg h2', hd]
          push_cast
          ring_nf
      · simp only [hlow, if_false]
        have : low ≤ (idx : Int) := by omega
        rw [if_pos this]

/-- The positioning loop with a nonpositive (in particular the `-1`
sentinel) low bound advances zero times: it returns the starting frame
with the counter still 0. -/
theorem position_frame_nonpos (depth : Nat) (fi : Option Nat) (low : Int)
    (h : low ≤ 0) : position_frame depth fi 0 low = (fi, 0) := by
  match fi with
  | none => rw [position_frame]
  | some idx =>
      rw [position_frame]
      have : ¬ ((0 : Int) < low) := by omega
      rw [if_neg this]

/-- Positioning from the innermost frame onto a valid in-range low
bound. -/
theorem position_start_in_range (depth : Nat) (low : Int)
    (h0 : 0 ≤ low) (h1 : low < (depth : Int)) :
    position_frame depth (get_current_frame depth) 0 low =
      (some low.toNat, low) := by
  have hd : depth ≠ 0 := by omega
  unfold get_current_frame
  rw [if_neg hd]
  have := position_frame_closed depth depth 0 low (by omega) (by omega)
  simp only [Nat.cast_zero] at this
  rw [this]
  by_cases hle : low ≤ (0 : Int)
  · have : low = 0 := by omega
    subst this
    simp
  · rw [if_neg hle, if_pos h1]

/-- Positioning from the innermost frame with a low bound at or past the
stack depth exhausts the frame chain. -/
theorem position_start_exhausted (depth : Nat) (low : Int)
    (h : (depth : Int) ≤ low) :
    position_frame depth (get_current_frame depth) 0 low =
      (none, (depth : Int)) := by
  unfold get_current_frame
  by_cases hd : depth = 0
  · subst hd
    rw [if_pos rfl, position_frame_at_none]
    simp
  · rw [if_neg hd]
    have := position_frame_closed depth depth 0 low (by omega) (by omega)
    simp only [Nat.cast_zero] at this
    rw [this]
    have h1 : ¬ (low ≤ (0 : Int)) := by omega
    have h2 : ¬ (low < (depth : Int)) := by omega
    rw [if_neg h1, if_neg h2]

/-- The frames display loop stops on a null frame pointer. -/
theorem print_frames_loop_at_none (depth : Nat) (i frame_high : Int) :
    print_frames_loop depth none i frame_high = [] := by
  rw [print_frames_loop]

/-- Closed form of the frames display loop with a nonnegative high bound,
started at frame `idx` with counter `idx`: it prints the frames (each
one at its own depth index) from `idx` up to the high bound or the
outermost frame, whichever comes first. -/
theorem print_frames_loop_closed (n : Nat) :
    ∀ (depth idx : Nat) (high : Int), depth - idx ≤ n → idx < depth →
    0 ≤ high →
    print_frames_loop depth (some idx) (idx : Int) high =
      List.range' idx (min (high.toNat + 1) depth - idx) := by
  induction n with
  | zero =>
      intro depth idx high h1 h2 h3
      omega
  | succ n ih =>
      intro depth idx high h1 h2 h3
      rw [print_frames_loop]
      by_cases hin : (idx : Int) ≤ high
      · rw [if_pos (Or.inl hin)]
        unfold get_prev_frame
        have hlen : min (high.toNat + 1) depth - idx =
            (min (high.toNat + 1) depth - (idx + 1)) + 1 := by omega
        rw [hlen]
        rw [List.range']
        by_cases hnext : idx + 1 < depth
        · rw [if_pos hnext]
          have hcast : (idx : Int) + 1 = ((idx + 1 : Nat) : Int) := by
            push_cast
            ring
          rw [hcast, ih depth (idx + 1) high (by omega) hnext h3]
        · rw [if_neg hnext, print_frames_loop_at_none]
          have : min (high.toNat + 1) depth - (idx + 1) = 0 := by omega
          rw [this]
          simp
      · rw [if_neg (by omega)]
        have : min (high.toNat + 1) depth - idx = 0 := by omega
        rw [this]
        simp

/-- The arguments display loop stops on a null frame pointer. -/
theorem list_args_loop_at_none (stack : List frame_info)
    (values : print_values) (i frame_high : Int) :
    list_args_loop stack values none i frame_high = [] := by
  rw [list_args_loop]

/-- Closed form of the arguments display loop with a nonnegative high
bound: one frame tuple per window index, carrying the loop counter as
the emitted level and the argument listing of the frame at that
index. -/
theorem list_args_loop_closed (n : Nat) :
    ∀ (stack : List frame_info) (values : print_values) (idx : Nat)
      (high : Int), stack.length - idx ≤ n → idx < stack.length →
    0 ≤ high →
    list_args_loop stack values (some idx) (idx : Int) high =
      (List.range' idx (min (high.toNat + 1) stack.length - idx)).map
        (fun (k : Nat) => ((k : Int),
          list_args_or_locals .arguments values (frame_at stack k))) := by
  induction n with
  | zero =>
      intro stack values idx high h1 h2 h3
      omega
  | succ n ih =>
      intro stack values idx high h1 h2 h3
      rw [list_args_loop]
      by_cases hin : (idx : Int) ≤ high
      · rw [if_pos (Or.inl hin)]
        unfold get_prev_frame
        have hlen : min (high.toNat + 1) stack.length - idx =
            (min (high.toNat + 1) stack.length - (idx + 1)) + 1 := by omega
        rw [hlen]
        rw [List.range']
        by_cases hnext : idx + 1 < stack.length
        · rw [if_pos hnext]
          have hcast : (idx : Int) + 1 = ((idx + 1 : Nat) : Int) := by
            push_cast
            ring
          rw [hcast, ih stack values (idx + 1) high (by omega) hnext h3]
          simp
        · rw [if_neg hnext, list_args_loop_at_none]
          have : min (high.toNat + 1) stack.length - (idx + 1) = 0 := by
            omega
          rw [this]
          simp
      · rw [if_neg (by omega)]
        have : min (high.toNat + 1) stack.length - idx = 0 := by omega
        rw [this]
        simp

/-- Claim C5: storage classes LOC_UNDEF, LOC_CONST, LOC_TYPEDEF,
LOC_LABEL, LOC_BLOCK, LOC_CONST_BYTES, LOC_UNRESOLVED and
LOC_OPTIMIZED_OUT are never listed for any `what`; for the candidate
classes, `all` includes unconditionally, `locals` includes exactly the
symbols whose `SYMBOL_IS_ARGUMENT` flag is clear, `arguments` exactly
those whose flag is set, so every candidate is included in exactly one of
the two role-driven listings. -/
theorem classifier_inclusion (what : what_to_list) (sym : symbol) :
    (excluded_class sym.aclass = true → print_me what sym = false) ∧
    (candidate_class sym.aclass = true →
      print_me .all sym = true ∧
      print_me .locals sym = !sym.is_argument ∧
      print_me .arguments sym = sym.is_argument ∧
      (print_me .locals sym = true ↔ ¬ print_me .arguments sym = true)) := by
  obtain ⟨nm, ln, ac, ia, ty, tt⟩ := sym
  cases ac <;> cases what <;> cases ia <;>
    simp [print_me, excluded_class, candidate_class]

/-- Witness for `classifier_inclusion` at a concrete stack local. -/
theorem classifier_inclusion_witness :
    candidate_class sample_local_sym.aclass = true ∧
    print_me .all sample_local_sym = true :=
  ⟨by decide,
    ((classifier_inclusion .all sample_local_sym).2 (by decide)).1⟩

/-- Claim C10 (refuted, code bug): the arity validation of
`mi_cmd_stack_list_args` accepts the vector
`--no-frame-filters PRINT_VALUES FRAME_LOW` of length 3 (raw_arg = 1, so
neither `argc > 3 && !raw_arg` nor `argc == 2 && !raw_arg` fires), yet
the `argc >= 3` branch then reads `argv[2 + raw_arg] = argv[3]`, one
past the end of the vector. -/
theorem stack_list_args_oob_read :
    stack_list_args_arity_ok ["--no-frame-filters", "2", "0"] = true ∧
    stack_list_args_read_indices ["--no-frame-filters", "2", "0"] =
      [1, 2, 3] ∧
    ¬ (3 < (["--no-frame-filters", "2", "0"] : List String).length) := by
  refine ⟨by decide, by decide, by decide⟩

/-- The dispatch condition, rewritten over the inputs of the state
machine: the built-in path is chosen exactly when the global flag is
clear, or the caller opted out, or the filter was actually invoked and
reported that no filters are registered. -/
theorem builtin_choice_characterization (ff raw : Bool)
    (fr : py_bt_status) :
    builtin_path_chosen ff raw (effective_filter_result ff raw fr) = true
      ↔ (ff = false ∨ raw = true ∨
          (ff = true ∧ raw = false ∧ fr = .PY_BT_NO_FILTERS)) := by
  cases ff <;> cases raw <;> cases fr <;> decide

/-- Claim C2: in each of the four request kinds, the built-in enumeration
runs if and only if the filters-enabled flag is unset, or the opt-out
token was passed, or the invoked filter returned PY_BT_NO_FILTERS (for
the two frame-window commands, once the request survives its bounds
check); when the filter is invoked and returns PY_BT_COMPLETED or
PY_BT_ERROR, no built-in path runs. -/
theorem dispatcher_builtin_iff (ff raw : Bool) (fr : py_bt_status)
    (values : print_values) (frame : frame_info)
    (low high : Int) (depth : Nat) (stack : List frame_info) :
    ((mi_cmd_stack_list_locals_core ff fr raw values frame).builtin_ran
        = true ↔
      (ff = false ∨ raw = true ∨
        (ff = true ∧ raw = false ∧ fr = .PY_BT_NO_FILTERS))) ∧
    ((mi_cmd_stack_list_variables_core ff fr raw values frame).builtin_ran
        = true ↔
      (ff = false ∨ raw = true ∨
        (ff = true ∧ raw = false ∧ fr = .PY_BT_NO_FILTERS))) ∧
    ((mi_cmd_stack_list_frames_core ff fr raw low high depth).err = none →
      ((mi_cmd_stack_list_frames_core ff fr raw low high depth).builtin_ran
          = true ↔
        (ff = false ∨ raw = true ∨
          (ff = true ∧ raw = false ∧ fr = .PY_BT_NO_FILTERS)))) ∧
    ((mi_cmd_stack_list_args_core ff fr raw values low high stack).err
        = none →
      ((mi_cmd_stack_list_args_core ff fr raw values low high
          stack).builtin_ran = true ↔
        (ff = false ∨ raw = true ∨
          (ff = true ∧ raw = false ∧ fr = .PY_BT_NO_FILTERS)))) ∧
    (ff = true → raw = false →
      (fr = .PY_BT_COMPLETED ∨ fr = .PY_BT_ERROR) →
      (mi_cmd_stack_list_locals_core ff fr raw values frame).builtin_ran
          = false ∧
      (mi_cmd_stack_list_variables_core ff fr raw values frame).builtin_ran
          = false ∧
      (mi_cmd_stack_list_frames_core ff fr raw low high depth).builtin_ran
          = false ∧
      (mi_cmd_stack_list_args_core ff fr raw values low high
          stack).builtin_ran = false) := by
  have hc := builtin_choice_characterization ff raw fr
  refine ⟨?_, ?_, ?_, ?_, ?_⟩
  · simpa [mi_cmd_stack_list_locals_core] using hc
  · simpa [mi_cmd_stack_list_variables_core] using hc
  · unfold mi_cmd_stack_list_frames_core
    cases hp : (position_frame depth (get_current_frame depth) 0
        low).1 with
    | none => simp [hp]
    | some idx => intro _; simpa [hp] using hc
  · unfold mi_cmd_stack_list_args_core
    cases hp : (position_frame stack.length
        (get_current_frame stack.length) 0 low).1 with
    | none => simp [hp]
    | some idx => intro _; simpa [hp] using hc
  · intro hff hraw hfr
    subst hff
    subst hraw
    have hb : builtin_path_chosen true false
        (effective_filter_result true false fr) = false := by
      rcases hfr with h | h <;> subst h <;> decide
    refine ⟨?_, ?_, ?_, ?_⟩
    · simpa [mi_cmd_stack_list_locals_core] using hb
    · simpa [mi_cmd_stack_list_variables_core] using hb
    · unfold mi_cmd_stack_list_frames_core
      cases hp : (position_frame depth (get_current_frame depth) 0
          low).1 with
      | none => simp [hp]
      | some idx => simpa [hp] using hb
    · unfold mi_cmd_stack_list_args_core
      cases hp : (position_frame stack.length
          (get_current_frame stack.length) 0 low).1 with
      | none => simp [hp]
      | some idx => simpa [hp] using hb

/-- Witness for `dispatcher_builtin_iff`: with filters enabled, no
opt-out, and the filter reporting no registered filters, the built-in
locals path runs. -/
theorem dispatcher_builtin_iff_witness :
    (mi_cmd_stack_list_locals_core true .PY_BT_NO_FILTERS false
      .PRINT_NO_VALUES empty_frame).builtin_ran = true :=
  (dispatcher_builtin_iff true false .PY_BT_NO_FILTERS .PRINT_NO_VALUES
    empty_frame 0 0 0 []).1.mpr (Or.inr (Or.inr ⟨rfl, rfl, rfl⟩))

/-- Claim C4: a low bound at or past the stack depth makes both
frame-window commands fail with the "Not enough frames in stack." error
and emit no frame records, rather than returning an empty listing. -/
theorem insufficient_frames_error (ff raw : Bool) (fr : py_bt_status)
    (values : print_values) (low high : Int) (depth : Nat)
    (stack : List frame_info)
    (hdepth : (depth : Int) ≤ low)
    (hstack : ((stack.length : Nat) : Int) ≤ low) :
    ((mi_cmd_stack_list_frames_core ff fr raw low high depth).err =
        some "-stack-list-frames: Not enough frames in stack." ∧
      (mi_cmd_stack_list_frames_core ff fr raw low high depth).levels
        = []) ∧
    ((mi_cmd_stack_list_args_core ff fr raw values low high stack).err =
        some "-stack-list-arguments: Not enough frames in stack." ∧
      (mi_cmd_stack_list_args_core ff fr raw values low high stack).frames
        = []) := by
  unfold mi_cmd_stack_list_frames_core mi_cmd_stack_list_args_core
  rw [position_start_exhausted depth low hdepth,
    position_start_exhausted stack.length low hstack]
  simp

/-- Witness for `insufficient_frames_error`: one frame, low bound 5. -/
theorem insufficient_frames_error_witness :
    (((1 : Nat) : Int) ≤ 5 ∧ ((([] : List frame_info).length : Int) ≤ 5)) ∧
    (mi_cmd_stack_list_frames_core false .PY_BT_ERROR false 5 7 1).err =
      some "-stack-list-frames: Not enough frames in stack." :=
  ⟨⟨by norm_num, by simp⟩,
    (insufficient_frames_error false false .PY_BT_ERROR .PRINT_NO_VALUES
      5 7 1 [] (by norm_num) (by simp)).1.1⟩

/-- Claim C9: the frame-window walk and its insufficient-frames check
run before `apply_frame_filter` is consulted, so a low bound at or past
the stack depth errors out without the filter ever being called, for any
setting of the filter flag and opt-out token. -/
theorem bounds_check_precedes_filter (ff raw : Bool) (fr : py_bt_status)
    (values : print_values) (low high : Int) (depth : Nat)
    (stack : List frame_info)
    (hdepth : (depth : Int) ≤ low)
    (hstack : ((stack.length : Nat) : Int) ≤ low) :
    ((mi_cmd_stack_list_frames_core ff fr raw low high depth).err.isSome
        = true ∧
      (mi_cmd_stack_list_frames_core ff fr raw low high
        depth).filter_called = false) ∧
    ((mi_cmd_stack_list_args_core ff fr raw values low high
        stack).err.isSome = true ∧
      (mi_cmd_stack_list_args_core ff fr raw values low high
        stack).filter_called = false) := by
  unfold mi_cmd_stack_list_frames_core mi_cmd_stack_list_args_core
  rw [position_start_exhausted depth low hdepth,
    position_start_exhausted stack.length low hstack]
  simp

/-- Witness for `bounds_check_precedes_filter`: filters enabled and
reporting PY_BT_COMPLETED, yet a low bound of 3 over a 2-frame stack
never reaches the filter. -/
theorem bounds_check_precedes_filter_witness :
    (((2 : Nat) : Int) ≤ 3) ∧
    (mi_cmd_stack_list_frames_core true .PY_BT_COMPLETED false 3 5
      2).filter_called = false :=
  ⟨by norm_num,
    (bounds_check_precedes_filter true false .PY_BT_COMPLETED
      .PRINT_NO_VALUES 3 5 2 [] (by norm_num) (by simp)).1.2⟩

/-- Claim C3: for bounds 0 ≤ low ≤ high < depth, neither frame-window
command errors, and whenever the built-in path runs it emits exactly
high - low + 1 frame records ordered by increasing depth index from low
to high; the frames command prints each frame at its own depth, and the
arguments command emits each window index as the level together with that
frame's own argument listing. -/
theorem frame_window_built_in_listing (ff raw : Bool) (fr : py_bt_status)
    (values : print_values) (low high : Int) (depth : Nat)
    (stack : List frame_info)
    (h0 : 0 ≤ low) (h1 : low ≤ high) (h2 : high < (depth : Int))
    (h3 : high < ((stack.length : Nat) : Int)) :
    ((mi_cmd_stack_list_frames_core ff fr raw low high depth).err = none ∧
      ((mi_cmd_stack_list_frames_core ff fr raw low high
          depth).builtin_ran = true →
        (mi_cmd_stack_list_frames_core ff fr raw low high depth).levels =
          List.range' low.toNat ((high - low + 1).toNat) ∧
        (mi_cmd_stack_list_frames_core ff fr raw low high
            depth).levels.length = (high - low + 1).toNat)) ∧
    ((mi_cmd_stack_list_args_core ff fr raw values low high stack).err
        = none ∧
      ((mi_cmd_stack_list_args_core ff fr raw values low high
          stack).builtin_ran = true →
        (mi_cmd_stack_list_args_core ff fr raw values low high
            stack).frames =
          (List.range' low.toNat ((high - low + 1).toNat)).map
            (fun (k : Nat) => ((k : Int),
              list_args_or_locals .arguments values (frame_at stack k)))
          ∧
        (mi_cmd_stack_list_args_core ff fr raw values low high
            stack).frames.length = (high - low + 1).toNat)) := by
  have hcast : ((low.toNat : Nat) : Int) = low := Int.toNat_of_nonneg h0
  have hpos : position_frame depth (get_current_frame depth) 0 low =
      (some low.toNat, low) :=
    position_start_in_range depth low h0 (by omega)
  have hpos2 : position_frame stack.length
      (get_current_frame stack.length) 0 low = (some low.toNat, low) :=
    position_start_in_range stack.length low h0 (by omega)
  have hloop : print_frames_loop depth (some low.toNat) low high =
      List.range' low.toNat ((high - low + 1).toNat) := by
    have hc := print_frames_loop_closed depth depth low.toNat high
      (by omega) (by omega) (by omega)
    rw [hcast] at hc
    rw [hc]
    have : min (high.toNat + 1) depth - low.toNat = (high - low + 1).toNat
      := by omega
    rw [this]
  have hloop2 : list_args_loop stack values (some low.toNat) low high =
      (List.range' low.toNat ((high - low + 1).toNat)).map
        (fun (k : Nat) => ((k : Int),
          list_args_or_locals .arguments values (frame_at stack k))) := by
    have hc := list_args_loop_closed stack.length stack values low.toNat
      high (by omega) (by omega) (by omega)
    rw [hcast] at hc
    rw [hc]
    have : min (high.toNat + 1) stack.length - low.toNat =
        (high - low + 1).toNat := by omega
    rw [this]
  constructor
  · unfold mi_cmd_stack_list_frames_core
    rw [hpos]
    refine ⟨by simp, ?_⟩
    intro hb
    simp only at hb ⊢
    rw [hb]
    simp only [if_true]
    rw [hloop]
    simp
  · unfold mi_cmd_stack_list_args_core
    rw [hpos2]
    refine ⟨by simp, ?_⟩
    intro hb
    simp only at hb ⊢
    rw [hb]
    simp only [if_true]
    rw [hloop2]
    simp

/-- Witness for `frame_window_built_in_listing`: the spec scenario of a
3-frame stack with window (0,1) yields exactly the two records at depths
0 and 1. -/
theorem frame_window_built_in_listing_witness :
    ((0 : Int) ≤ 0 ∧ (0 : Int) ≤ 1 ∧ (1 : Int) < ((3 : Nat) : Int)) ∧
    (mi_cmd_stack_list_frames_core false .PY_BT_ERROR false 0 1 3).levels
      = [0, 1] := by
  have h := frame_window_built_in_listing false false .PY_BT_ERROR
    .PRINT_NO_VALUES 0 1 3 [empty_frame, empty_frame, empty_frame]
    (by norm_num) (by norm_num) (by norm_num) (by simp)
  have hb : (mi_cmd_stack_list_frames_core false .PY_BT_ERROR false 0 1
      3).builtin_ran = true := by
    simp [mi_cmd_stack_list_frames_core, position_frame,
      get_current_frame, get_prev_frame, builtin_path_chosen,
      effective_filter_result]
  refine ⟨⟨by norm_num, by norm_num, by norm_num⟩, ?_⟩
  rw [(h.1.2 hb).1]
  decide

/-- Claim C8: the `-1` unbounded-low sentinel makes the built-in
positioning loop advance zero times (it starts at the innermost frame,
with the bound itself unchanged), while the filter path receives the
translated value 0; no call of the filter ever receives -1 as its low
bound. -/
theorem unbounded_low_sentinel_translation (fr : py_bt_status)
    (values : print_values) (high : Int) (depth : Nat)
    (stack : List frame_info)
    (hd : 0 < depth) (hs : 0 < stack.length) :
    (∀ low : Int, py_frame_low_of low ≠ -1) ∧
    py_frame_low_of (-1) = 0 ∧
    (∀ (d : Nat) (fi : Option Nat), position_frame d fi 0 (-1) = (fi, 0))
    ∧
    (mi_cmd_stack_list_frames_core true fr false (-1) high
      depth).filter_frame_low = some 0 ∧
    ((mi_cmd_stack_list_frames_core true fr false (-1) high
        depth).builtin_ran = true →
      (mi_cmd_stack_list_frames_core true fr false (-1) high
        depth).levels = print_frames_loop depth (some 0) 0 high) ∧
    (mi_cmd_stack_list_args_core true fr false values (-1) high
      stack).filter_frame_low = some 0 ∧
    ((mi_cmd_stack_list_args_core true fr false values (-1) high
        stack).builtin_ran = true →
      (mi_cmd_stack_list_args_core true fr false values (-1) high
        stack).frames = list_args_loop stack values (some 0) 0 high) := by
  have hcur : get_current_frame depth = some 0 := by
    unfold get_current_frame
    rw [if_neg (by omega)]
  have hcur2 : get_current_frame stack.length = some 0 := by
    unfold get_current_frame
    rw [if_neg (by omega)]
  have hposf : position_frame depth (get_current_frame depth) 0 (-1) =
      (some 0, 0) := by
    rw [position_frame_nonpos depth _ (-1) (by norm_num), hcur]
  have hposa : position_frame stack.length
      (get_current_frame stack.length) 0 (-1) = (some 0, 0) := by
    rw [position_frame_nonpos stack.length _ (-1) (by norm_num), hcur2]
  refine ⟨?_, by norm_num [py_frame_low_of], ?_, ?_, ?_, ?_, ?_⟩
  · intro low
    unfold py_frame_low_of
    by_cases h : low = -1
    · rw [if_pos h]
      omega
    · rw [if_neg h]
      exact h
  · intro d fi
    exact position_frame_nonpos d fi (-1) (by norm_num)
  · unfold mi_cmd_stack_list_frames_core
    rw [hposf]
    norm_num [py_frame_low_of]
  · unfold mi_cmd_stack_list_frames_core
    rw [hposf]
    intro hb
    simp only at hb ⊢
    rw [hb]
    simp
  · unfold mi_cmd_stack_list_args_core
    rw [hposa]
    norm_num [py_frame_low_of]
  · unfold mi_cmd_stack_list_args_core
    rw [hposa]
    intro hb
    simp only at hb ⊢
    rw [hb]
    simp

/-- Witness for `unbounded_low_sentinel_translation`: a 1-frame stack
with the whole-backtrace request passes low bound 0, not -1, to the
filter. -/
theorem unbounded_low_sentinel_translation_witness :
    (0 < 1) ∧
    (mi_cmd_stack_list_frames_core true .PY_BT_NO_FILTERS false (-1) (-1)
      1).filter_frame_low = some 0 :=
  ⟨by norm_num,
    (unbounded_low_sentinel_translation .PY_BT_NO_FILTERS
      .PRINT_NO_VALUES (-1) 1 [empty_frame] (by norm_num)
      (by simp)).2.2.2.1⟩

/-- When the values switch decides to fetch, the `arg`/`entryarg` pair is
exactly what `read_frame_arg` produced. -/
theorem fetch_values_for_attempted (values : print_values)
    (fi : frame_info) (sym2 : symbol)
    (h : fetch_attempted values sym2 = true) :
    fetch_values_for values fi sym2 = fi.read_frame_arg sym2 := by
  cases values with
  | PRINT_NO_VALUES => simp [fetch_attempted] at h
  | PRINT_ALL_VALUES => rfl
  | PRINT_SIMPLE_VALUES =>
      simp only [fetch_attempted, decide_eq_true_eq] at h
      simp only [fetch_values_for]
      rw [if_pos h]

/-- When the values switch skips the fetch, the `arg`/`entryarg` pair
stays in its initialized state. -/
theorem fetch_values_for_skipped (values : print_values)
    (fi : frame_info) (sym2 : symbol)
    (h : fetch_attempted values sym2 = false) :
    fetch_values_for values fi sym2 = no_fetch := by
  cases values with
  | PRINT_NO_VALUES => rfl
  | PRINT_ALL_VALUES => simp [fetch_attempted] at h
  | PRINT_SIMPLE_VALUES =>
      simp only [fetch_attempted, decide_eq_false_iff_not] at h
      simp only [fetch_values_for]
      rw [if_neg h]

/-- Every record a symbol contributes is `list_arg_or_local` of a
`frame_arg` built around the resolved symbol. -/
theorem mem_process_symbol (fi : frame_info) (blk : block)
    (what : what_to_list) (values : print_values) (sym : symbol)
    (r : listed_record) (hr : r ∈ process_symbol fi blk what values sym) :
    ∃ a : frame_arg, a.sym = resolve_sym fi blk sym ∧
      r = list_arg_or_local a what values := by
  simp only [process_symbol, List.mem_append] at hr
  rcases hr with h | h
  · split at h
    · simp only [List.mem_singleton] at h
      exact ⟨_, rfl, h⟩
    · simp at h
  · split at h
    · simp only [List.mem_singleton] at h
      exact ⟨_, rfl, h⟩
    · simp at h

/-- Claim C7: once the fetch step has run, the normal-location request is
emitted unless its entry kind came back `print_entry_values_only`, and,
independently, the entry-location request is emitted whenever its entry
kind is not `print_entry_values_no`; a record whose entry kind is
`print_entry_values_only` carries the "@entry"-suffixed name. -/
theorem entry_kind_emission (fi : frame_info) (blk : block)
    (what : what_to_list) (values : print_values) (sym : symbol)
    (hf : fetch_attempted values (resolve_sym fi blk sym) = true) :
    (process_symbol fi blk what values sym =
      (if (fi.read_frame_arg (resolve_sym fi blk sym)).arg_entry_kind ≠
          .print_entry_values_only then
        [list_arg_or_local
          ⟨resolve_sym fi blk sym,
            (fi.read_frame_arg (resolve_sym fi blk sym)).arg_val,
            (fi.read_frame_arg (resolve_sym fi blk sym)).arg_error,
            (fi.read_frame_arg (resolve_sym fi blk sym)).arg_entry_kind⟩
          what values]
      else []) ++
      (if (fi.read_frame_arg (resolve_sym fi blk sym)).entryarg_entry_kind
          ≠ .print_entry_values_no then
        [list_arg_or_local
          ⟨resolve_sym fi blk sym,
            (fi.read_frame_arg (resolve_sym fi blk sym)).entryarg_val,
            (fi.read_frame_arg (resolve_sym fi blk sym)).entryarg_error,
            (fi.read_frame_arg (resolve_sym fi blk
              sym)).entryarg_entry_kind⟩
          what values]
      else [])) ∧
    (∀ a : frame_arg, a.entry_kind = .print_entry_values_only →
      (list_arg_or_local a what values).name = a.sym.name ++ "@entry") ∧
    (∀ a : frame_arg, a.entry_kind = .print_entry_values_no →
      (list_arg_or_local a what values).name = a.sym.name) := by
  refine ⟨?_, ?_, ?_⟩
  · simp only [process_symbol]
    rw [fetch_values_for_attempted values fi (resolve_sym fi blk sym) hf]
  · intro a ha
    simp [list_arg_or_local, ha]
  · intro a ha
    simp [list_arg_or_local, ha]

/-- Witness for `entry_kind_emission`: the both-locations outcome emits
the plain record and the "@entry"-suffixed one. -/
theorem entry_kind_emission_witness :
    fetch_attempted .PRINT_ALL_VALUES
      (resolve_sym entry_frame entry_block entry_arg_sym) = true ∧
    process_symbol entry_frame entry_block .arguments .PRINT_ALL_VALUES
      entry_arg_sym =
      [⟨"p", false, none, some "2"⟩, ⟨"p@entry", false, none, some "1"⟩]
    := by
  refine ⟨by decide, ?_⟩
  have h := (entry_kind_emission entry_frame entry_block .arguments
    .PRINT_ALL_VALUES entry_arg_sym (by decide)).1
  rw [h]
  decide

/-- Claim C6: under `PRINT_SIMPLE_VALUES` every record of a qualifying
symbol carries the resolved symbol's type text; the value fetch is
attempted exactly when the typedef-resolved type is not an
array/struct/union; an aggregate-typed symbol yields one record with a
type field and no value field, while a non-aggregate one whose fetch
populates a value or error yields a leading record with both the type
field and a value field. -/
theorem simple_values_policy (fi : frame_info) (blk : block)
    (what : what_to_list) (sym : symbol) :
    (∀ r ∈ process_symbol fi blk what .PRINT_SIMPLE_VALUES sym,
      r.type_field = some (resolve_sym fi blk sym).type_text) ∧
    (fetch_attempted .PRINT_SIMPLE_VALUES (resolve_sym fi blk sym) =
      !aggregate_type_code (resolve_sym fi blk sym).type) ∧
    (aggregate_type_code (resolve_sym fi blk sym).type = true →
      process_symbol fi blk what .PRINT_SIMPLE_VALUES sym =
        [list_arg_or_local
          ⟨resolve_sym fi blk sym, none, none, .print_entry_values_no⟩
          what .PRINT_SIMPLE_VALUES] ∧
      (list_arg_or_local
        ⟨resolve_sym fi blk sym, none, none, .print_entry_values_no⟩
        what .PRINT_SIMPLE_VALUES).value_field = none ∧
      (list_arg_or_local
        ⟨resolve_sym fi blk sym, none, none, .print_entry_values_no⟩
        what .PRINT_SIMPLE_VALUES).type_field =
          some (resolve_sym fi blk sym).type_text) ∧
    (aggregate_type_code (resolve_sym fi blk sym).type = false →
      (fi.read_frame_arg (resolve_sym fi blk sym)).arg_entry_kind ≠
        .print_entry_values_only →
      ((fi.read_frame_arg (resolve_sym fi blk sym)).arg_val.isSome = true
        ∨ (fi.read_frame_arg (resolve_sym fi blk
            sym)).arg_error.isSome = true) →
      ∃ r rest,
        process_symbol fi blk what .PRINT_SIMPLE_VALUES sym = r :: rest ∧
        r.type_field = some (resolve_sym fi blk sym).type_text ∧
        r.value_field.isSome = true) := by
  have hagg : fetch_attempted .PRINT_SIMPLE_VALUES
      (resolve_sym fi blk sym) =
      !aggregate_type_code (resolve_sym fi blk sym).type := by
    simp only [fetch_attempted, aggregate_type_code]
    by_cases hA : TYPE_CODE (check_typedef (resolve_sym fi blk sym).type)
        = .TYPE_CODE_ARRAY
    · simp [hA]
    · by_cases hS : TYPE_CODE (check_typedef
          (resolve_sym fi blk sym).type) = .TYPE_CODE_STRUCT
      · simp [hA, hS]
      · by_cases hU : TYPE_CODE (check_typedef
            (resolve_sym fi blk sym).type) = .TYPE_CODE_UNION
        · simp [hA, hS, hU]
        · simp [hA, hS, hU]
  refine ⟨?_, hagg, ?_, ?_⟩
  · intro r hr
    obtain ⟨a, ha, hra⟩ := mem_process_symbol fi blk what
      .PRINT_SIMPLE_VALUES sym r hr
    subst hra
    simp [list_arg_or_local, ha]
  · intro ha
    have hskip : fetch_values_for .PRINT_SIMPLE_VALUES fi
        (resolve_sym fi blk sym) = no_fetch :=
      fetch_values_for_skipped .PRINT_SIMPLE_VALUES fi
        (resolve_sym fi blk sym) (by rw [hagg, ha]; rfl)
    refine ⟨?_, by simp [list_arg_or_local], by simp [list_arg_or_local]⟩
    simp only [process_symbol, hskip, no_fetch]
    simp
  · intro ha hek hpop
    have hget : fetch_values_for .PRINT_SIMPLE_VALUES fi
        (resolve_sym fi blk sym) =
        fi.read_frame_arg (resolve_sym fi blk sym) :=
      fetch_values_for_attempted .PRINT_SIMPLE_VALUES fi
        (resolve_sym fi blk sym) (by rw [hagg, ha]; rfl)
    simp only [process_symbol, hget]
    rw [if_pos hek]
    rw [List.singleton_append]
    refine ⟨_, _, rfl, ?_, ?_⟩
    · simp [list_arg_or_local]
    · cases he : (fi.read_frame_arg (resolve_sym fi blk sym)).arg_error
        with
      | some e => simp [list_arg_or_local, he]
      | none =>
          cases hv : (fi.read_frame_arg (resolve_sym fi blk sym)).arg_val
            with
          | some v => simp [list_arg_or_local, he, hv]
          | none => simp [he, hv] at hpop

/-- Witness for `simple_values_policy`: a struct local under
`PRINT_SIMPLE_VALUES` gets its type text and no value field. -/
theorem simple_values_policy_witness :
    aggregate_type_code
      (resolve_sym struct_frame struct_block struct_sym).type = true ∧
    process_symbol struct_frame struct_block .locals .PRINT_SIMPLE_VALUES
      struct_sym = [⟨"s", false, some "struct st", none⟩] := by
  refine ⟨by decide, ?_⟩
  have h := ((simple_values_policy struct_frame struct_block .locals
    struct_sym).2.2.1 (by decide)).1
  rw [h]
  decide

/-- Claim C1: a variable whose value fetch fails still yields exactly one
record, whose value field is the failure message wrapped in the
"<error reading variable: ...>" marker; the listing does not abort, the
variables before and after it in the same frame contribute their own
records unchanged, and every frame of the arguments window keeps
emitting its own full listing. -/
theorem fetch_failure_isolation (what : what_to_list)
    (values : print_values) (fi : frame_info) (blk : block)
    (sym : symbol) (e : String)
    (hsel : print_me what sym = true)
    (hatt : fetch_attempted values (resolve_sym fi blk sym) = true)
    (hfail : fi.read_frame_arg (resolve_sym fi blk sym) =
      fetch_failure e) :
    (process_symbol fi blk what values sym =
      [list_arg_or_local
        ⟨resolve_sym fi blk sym, none, some e, .print_entry_values_no⟩
        what values] ∧
     (list_arg_or_local
        ⟨resolve_sym fi blk sym, none, some e, .print_entry_values_no⟩
        what values).value_field = some (error_value_string e)) ∧
    (∀ pre post bpre bpost,
      blocks_to_walk fi.blocks = bpre ++ blk :: bpost →
      blk.syms = pre ++ sym :: post →
      list_args_or_locals what values fi =
        bpre.flatMap
          (fun b => b.syms.flatMap (symbol_records fi b what values)) ++
        (pre.flatMap (symbol_records fi blk what values) ++
          [list_arg_or_local
            ⟨resolve_sym fi blk sym, none, some e,
              .print_entry_values_no⟩ what values] ++
          post.flatMap (symbol_records fi blk what values)) ++
        bpost.flatMap
          (fun b => b.syms.flatMap (symbol_records fi b what values))) ∧
    (∀ (ff raw : Bool) (fr : py_bt_status) (stack : List frame_info)
      (low high : Int),
      0 ≤ low → low ≤ high → high < ((stack.length : Nat) : Int) →
      (mi_cmd_stack_list_args_core ff fr raw values low high
        stack).builtin_ran = true →
      (mi_cmd_stack_list_args_core ff fr raw values low high
        stack).frames =
        (List.range' low.toNat ((high - low + 1).toNat)).map
          (fun (k : Nat) => ((k : Int),
            list_args_or_locals .arguments values (frame_at stack k))))
    := by
  have hone : process_symbol fi blk what values sym =
      [list_arg_or_local
        ⟨resolve_sym fi blk sym, none, some e, .print_entry_values_no⟩
        what values] := by
    simp only [process_symbol]
    rw [fetch_values_for_attempted values fi (resolve_sym fi blk sym)
      hatt, hfail]
    simp [fetch_failure]
  refine ⟨⟨hone, by simp [list_arg_or_local]⟩, ?_, ?_⟩
  · intro pre post bpre bpost hw hsyms
    have hrec : symbol_records fi blk what values sym =
        [list_arg_or_local
          ⟨resolve_sym fi blk sym, none, some e, .print_entry_values_no⟩
          what values] := by
      unfold symbol_records
      rw [if_pos hsel]
      exact hone
    unfold list_args_or_locals
    rw [hw]
    simp only [List.flatMap_append, List.flatMap_cons]
    rw [hsyms]
    simp only [List.flatMap_append, List.flatMap_cons, hrec]
    simp [List.append_assoc]
  · intro ff raw fr stack low high h0 h1 h3 hb
    have hcast : ((low.toNat : Nat) : Int) = low := Int.toNat_of_nonneg h0
    have hpos2 : position_frame stack.length
        (get_current_frame stack.length) 0 low = (some low.toNat, low) :=
      position_start_in_range stack.length low h0 (by omega)
    have hloop2 : list_args_loop stack values (some low.toNat) low high =
        (List.range' low.toNat ((high - low + 1).toNat)).map
          (fun (k : Nat) => ((k : Int),
            list_args_or_locals .arguments values (frame_at stack k)))
        := by
      have hc := list_args_loop_closed stack.length stack values
        low.toNat high (by omega) (by omega) (by omega)
      rw [hcast] at hc
      rw [hc]
      have : min (high.toNat + 1) stack.length - low.toNat =
          (high - low + 1).toNat := by omega
      rw [this]
    unfold mi_cmd_stack_list_args_core at hb ⊢
    rw [hpos2] at hb ⊢
    simp only at hb ⊢
    rw [hb]
    simp only [if_true]
    exact hloop2

/-- Witness for `fetch_failure_isolation`: in a block x, y, z where only
y's fetch fails, the listing contains x's record, then y's error-marked
record, then z's record. -/
theorem fetch_failure_isolation_witness :
    (print_me .locals local_y = true ∧
      fetch_attempted .PRINT_ALL_VALUES
        (resolve_sym failing_frame mixed_block local_y) = true ∧
      failing_frame.read_frame_arg
        (resolve_sym failing_frame mixed_block local_y) =
        fetch_failure read_error_msg) ∧
    list_args_or_locals .locals .PRINT_ALL_VALUES failing_frame =
      [⟨"x", false, none, some "7"⟩,
        ⟨"y", false, none, some (error_value_string read_error_msg)⟩,
        ⟨"z", false, none, some "7"⟩] := by
  refine ⟨⟨by decide, by decide, by decide⟩, ?_⟩
  have h := (fetch_failure_isolation .locals .PRINT_ALL_VALUES
    failing_frame mixed_block local_y read_error_msg (by decide)
    (by decide) (by decide)).2.1 [local_x] [local_z] [] []
    (by decide) (by decide)
  rw [h]
  decide

end MiCmdStack
